import Mathlib

/-!
Verification of the realtime voice-session engine in `src/App.tsx`
(Voice-ai repository).

The file shallowly embeds the stateful pieces of `App.tsx` as pure Lean
functions over explicit state records:

* the Output Playback Scheduler (`nextStartTimeRef` / `sourcesRef`,
  lines 225-247 of `App.tsx`);
* the Transcript Aggregator (`transcriptBufferRef` / `setTranscripts`,
  lines 204-222);
* the Tool Dispatcher (`handleGenerateImage`, lines 103-124, and the
  `toolCall` branch of `onmessage`, lines 191-202);
* session lifecycle (`cleanupSession`, lines 77-101, and `startSession`,
  lines 136-267).

Time is modelled with `ℚ`; the browser's audio clock (`outCtx.currentTime`)
is an input supplied at each event.  External collaborators (the Gemini
image-generation call, the audio decoder from `utils/audio-helpers`) are
modelled by explicit outcome parameters, so that both their success and
failure paths are visible in the model.
-/

namespace VoiceAI

/-! ## Output Playback Scheduler

State of the scheduler embedded from `App.tsx`:
`nextStartTimeRef.current : number` and `sourcesRef.current : Set<AudioBufferSourceNode>`.
A scheduled playback handle is recorded as its (startTime, duration) pair. -/

structure SchedState where
  nextStartTime : ℚ
  sources : List (ℚ × ℚ)
  deriving Repr, DecidableEq

/-- One audio chunk arriving in `onmessage` (`App.tsx` lines 227-239), after a
successful decode of duration `dur`, with the output clock reading `clockNow`:
`nextStartTimeRef.current = Math.max(nextStartTimeRef.current, outCtx.currentTime)`;
`source.start(nextStartTimeRef.current)`; `nextStartTimeRef.current += audioBuffer.duration`;
`sourcesRef.current.add(source)`.  Returns the new state and the start time
passed to `source.start`. -/
def enqueueChunk (clockNow dur : ℚ) (st : SchedState) : SchedState × ℚ :=
  let start := max st.nextStartTime clockNow
  ({ nextStartTime := start + dur, sources := (start, dur) :: st.sources }, start)

/-- A burst of chunks processed in arrival order; each list element is the
pair (output clock reading at that enqueue, decoded buffer duration).
Returns the final state and the list of start times, in order. -/
def runEnqueues (st : SchedState) : List (ℚ × ℚ) → SchedState × List ℚ
  | [] => (st, [])
  | (clk, dur) :: rest =>
    let p := enqueueChunk clk dur st
    let q := runEnqueues p.1 rest
    (q.1, p.2 :: q.2)

/-- `serverContent.interrupted` handling (`App.tsx` lines 243-247):
stop every source, clear the set, reset the cursor to 0. -/
def interrupt (_st : SchedState) : SchedState :=
  { nextStartTime := 0, sources := [] }

/-! ## Transcript Aggregator

Embedded from `App.tsx` lines 204-222: `transcriptBufferRef.current` holds a
running string per role; on `serverContent.turnComplete` both strings are
trimmed, each non-empty one becomes a finalized entry, the entries are
prepended to the bounded `transcripts` list (capped at 30), and the buffers
are reset unconditionally. -/

inductive Role where
  | user
  | model
  deriving Repr, DecidableEq

structure Entry where
  type : Role
  text : String
  deriving Repr, DecidableEq

structure TranscriptBuffer where
  user : String
  model : String
  deriving Repr, DecidableEq

/-- JavaScript `String.prototype.trim`: drop leading and trailing whitespace.
(The core `String.trim` is extensionally the same but is not
kernel-reducible, so the embedding spells it out over the character list.) -/
def jsTrim (s : String) : String :=
  ⟨(((s.data.dropWhile Char.isWhitespace).reverse.dropWhile Char.isWhitespace).reverse)⟩

/-- `transcriptBufferRef.current.user += text` / `.model += text`
(`App.tsx` lines 205-210). -/
def appendFragment (b : TranscriptBuffer) (r : Role) (t : String) : TranscriptBuffer :=
  match r with
  | Role.user => { b with user := b.user ++ t }
  | Role.model => { b with model := b.model ++ t }

/-- A sequence of fragments applied in arrival order. -/
def appendFragments (b : TranscriptBuffer) (frags : List (Role × String)) : TranscriptBuffer :=
  frags.foldl (fun acc rt => appendFragment acc rt.1 rt.2) b

/-- The finalized entries a `turnComplete` produces from the buffers
(`App.tsx` lines 212-218): a user entry for a non-empty trimmed user buffer,
then a model entry for a non-empty trimmed model buffer. -/
def turnEntries (b : TranscriptBuffer) : List Entry :=
  (if jsTrim b.user ≠ "" then [⟨Role.user, jsTrim b.user⟩] else []) ++
  (if jsTrim b.model ≠ "" then [⟨Role.model, jsTrim b.model⟩] else [])

/-- The `setTranscripts` update (`App.tsx` lines 215-219):
`[...newEntries, ...prev].slice(0, 30)`. -/
def insertEntries (es : List Entry) (prev : List Entry) : List Entry :=
  (es ++ prev).take 30

/-- The whole `turnComplete` branch (`App.tsx` lines 211-222): when at least
one trimmed buffer is non-empty the entries are prepended to the bounded
list; the buffers are reset unconditionally.  Returns (new buffer, new
transcripts list). -/
def completeTurn (b : TranscriptBuffer) (prev : List Entry) :
    TranscriptBuffer × List Entry :=
  (⟨"", ""⟩,
    if jsTrim b.user ≠ "" ∨ jsTrim b.model ≠ "" then insertEntries (turnEntries b) prev
    else prev)

/-- The concatenation, in call order, of the fragments of one role. -/
def roleConcat (r : Role) : List (Role × String) → String
  | [] => ""
  | (r', t) :: rest => (if r' = r then t else "") ++ roleConcat r rest

/-! ## Session state

The mutable pieces of the React component (`App.tsx` lines 62-75), as one
record: the `useState` values and the `useRef` cells.  Resources
(`sessionRef`, `streamRef`, the two `AudioContext` refs) are modelled by
whether they are currently held. -/

structure AppState where
  isActive : Bool
  isConnecting : Bool
  transcripts : List Entry
  error : Option String
  generatedImage : Option String
  isGeneratingImage : Bool
  audioContextIn : Bool
  audioContextOut : Bool
  sched : SchedState
  sessionOpen : Bool
  streamHeld : Bool
  buffer : TranscriptBuffer
  deriving Repr, DecidableEq

/-- The component's initial state (`App.tsx` lines 62-75): nothing acquired,
cursor 0, empty buffers and history. -/
def initialState : AppState :=
  { isActive := false, isConnecting := false, transcripts := [], error := none,
    generatedImage := none, isGeneratingImage := false, audioContextIn := false,
    audioContextOut := false, sched := ⟨0, []⟩, sessionOpen := false,
    streamHeld := false, buffer := ⟨"", ""⟩ }

/-- `cleanupSession` (`App.tsx` lines 77-101): close the channel, stop the
capture tracks, close both audio contexts, stop every scheduled source and
clear the set, reset the cursor, drop the active/connecting flags.  Every
fallible close inside it is wrapped in `try/catch` (or `.catch(() => {})`)
in the source, so the operation is total: it never raises. -/
def cleanupSession (s : AppState) : AppState :=
  { s with sessionOpen := false, streamHeld := false, audioContextIn := false,
           audioContextOut := false, sched := ⟨0, []⟩, isActive := false,
           isConnecting := false }

/-! ## Tool Dispatcher -/

/-- One part of the image collaborator's reply
(`response.candidates[0].content.parts`). -/
structure Part where
  inlineData : Option String
  deriving Repr, DecidableEq

/-- The collaborator's reply as consumed by `handleGenerateImage`: the parts
of the first candidate.  A shape violation (no candidates, no content) is an
error outcome of the call, like a network failure: both throw inside the
same `try`. -/
structure GenResponse where
  parts : List Part
  deriving Repr, DecidableEq

/-- `fc` in `message.toolCall.functionCalls`. -/
structure FunctionCall where
  id : String
  name : String
  promptArg : String
  deriving Repr, DecidableEq

/-- An outbound `sendToolResponse` payload
(`{functionResponses: {id, name, response: {result}}}`). -/
structure ToolResponse where
  id : String
  name : String
  result : String
  deriving Repr, DecidableEq

/-- The unconditional reply text of `handleGenerateImage`
(`App.tsx` line 123). -/
def confirmationText : String := "ছবিটি নিচে তৈরি করা হয়েছে।"

/-- Result of running the dispatcher: new state, replies sent on the
channel, prompts passed to the collaborator, console log lines. -/
structure DispatchResult where
  state : AppState
  responses : List ToolResponse
  invoked : List String
  logs : List String
  deriving Repr, DecidableEq

/-- `handleGenerateImage` (`App.tsx` lines 103-124).  `gen` is the external
image-generation collaborator; its outcome for the prompt decides the
branch.  On success the first part carrying `inlineData` (the `for`/`break`
loop) becomes the current artifact; on failure the error is logged and no
artifact is stored.  Either way `isGeneratingImage` ends `false` (the
`finally`) and the returned result text is the same fixed confirmation. -/
def handleGenerateImage (gen : String → Except String GenResponse)
    (prompt : String) (s : AppState) : AppState × String × List String :=
  match gen prompt with
  | Except.error e =>
      ({ s with isGeneratingImage := false }, confirmationText,
        ["Image generation failed: " ++ e])
  | Except.ok resp =>
      match resp.parts.findSome? (fun p => p.inlineData) with
      | some d =>
          ({ s with generatedImage := some ("data:image/png;base64," ++ d),
                    isGeneratingImage := false }, confirmationText, [])
      | none => ({ s with isGeneratingImage := false }, confirmationText, [])

/-- The `toolCall` branch of `onmessage` (`App.tsx` lines 191-202): for each
function call whose name is `generateImage`, run the handler and send one
`toolResponse` with the call's own id and name and the handler's result
text.  Calls with any other name are not dispatched at all. -/
def processFunctionCalls (gen : String → Except String GenResponse)
    (s : AppState) : List FunctionCall → DispatchResult
  | [] => ⟨s, [], [], []⟩
  | fc :: rest =>
    if fc.name = "generateImage" then
      let h := handleGenerateImage gen fc.promptArg s
      let r := processFunctionCalls gen h.1 rest
      ⟨r.state, ⟨fc.id, fc.name, h.2.1⟩ :: r.responses,
        fc.promptArg :: r.invoked, h.2.2 ++ r.logs⟩
    else
      processFunctionCalls gen s rest

/-! ## Inbound message handling -/

/-- Modelled from the spec: the audio decode path
`decodeAudioData(decode(audioData), outCtx, 24000, 1)` lives in
`utils/audio-helpers`, which is outside the examined source file.  Per
§4.1 of the spec, the transport decode fails with `MalformedPayload` on an
invalid encoding and the PCM decode fails with `UnsupportedFormat` when the
byte length is not a multiple of the sample width (2); on success the buffer
duration is the sample count divided by the target rate (24000).  Both
failure modes surface identically inside `onmessage`: the awaited expression
throws. -/
def decodeAudioChunk (bytes : List ℕ) : Except String ℚ :=
  if bytes.length % 2 = 0 then Except.ok (((bytes.length : ℚ) / 2) / 24000)
  else Except.error "UnsupportedFormat"

/-- One inbound `LiveServerMessage` as read by `onmessage`: the optional
tool calls, the optional transcription fragments, the turn-complete flag,
the first `inlineData` payload of `modelTurn.parts` (as transport bytes),
and the interrupted flag. -/
structure LiveMessage where
  toolCalls : List FunctionCall
  inputTranscription : Option String
  outputTranscription : Option String
  turnComplete : Bool
  audioData : Option (List ℕ)
  interrupted : Bool
  deriving Repr, DecidableEq

/-- The `serverContent.interrupted` branch (`App.tsx` lines 243-247). -/
def applyInterrupted (msg : LiveMessage) (s : AppState) : AppState :=
  if msg.interrupted then { s with sched := interrupt s.sched } else s

/-- Result of one `onmessage` invocation.  `threw = true` records that the
handler aborted with an uncaught exception partway through (the audio decode
path has no `try/catch`): the remaining statements of that one invocation
are skipped, but nothing closes the session and later messages are still
delivered to fresh invocations. -/
structure MsgOutcome where
  state : AppState
  responses : List ToolResponse
  invoked : List String
  logs : List String
  threw : Bool
  deriving Repr, DecidableEq

/-- The first half of `onmessage` (`App.tsx` lines 189-222), in source
order: tool-call dispatch, transcription accumulation, turn completion. -/
def preAudio (gen : String → Except String GenResponse) (msg : LiveMessage)
    (s : AppState) : DispatchResult :=
  let d := processFunctionCalls gen s msg.toolCalls
  let s1 := d.state
  let s2 := match msg.inputTranscription with
    | some t => { s1 with buffer := appendFragment s1.buffer Role.user t }
    | none => s1
  let s3 := match msg.outputTranscription with
    | some t => { s2 with buffer := appendFragment s2.buffer Role.model t }
    | none => s2
  let s4 := if msg.turnComplete then
      let p := completeTurn s3.buffer s3.transcripts
      { s3 with buffer := p.1, transcripts := p.2 }
    else s3
  ⟨s4, d.responses, d.invoked, d.logs⟩

/-- `onmessage` (`App.tsx` lines 189-248), in source order: the pre-audio
half, then audio scheduling — the cursor is first clamped to
`max(cursor, outCtx.currentTime)`, then the chunk is decoded (a decode
failure throws out of the invocation here, skipping the rest, including the
interrupted branch), then the source is scheduled at the cursor and the
cursor advances by the buffer duration — and finally the interrupted
branch. -/
def onMessage (gen : String → Except String GenResponse) (clockNow : ℚ)
    (msg : LiveMessage) (s : AppState) : MsgOutcome :=
  let d := preAudio gen msg s
  let s4 := d.state
  match msg.audioData with
  | none => ⟨applyInterrupted msg s4, d.responses, d.invoked, d.logs, false⟩
  | some bytes =>
    if s4.audioContextOut then
      let bumped : SchedState :=
        { s4.sched with nextStartTime := max s4.sched.nextStartTime clockNow }
      match decodeAudioChunk bytes with
      | Except.error _ =>
          ⟨{ s4 with sched := bumped }, d.responses, d.invoked, d.logs, true⟩
      | Except.ok dur =>
          let scheduled : SchedState :=
            { nextStartTime := bumped.nextStartTime + dur,
              sources := (bumped.nextStartTime, dur) :: bumped.sources }
          ⟨applyInterrupted msg { s4 with sched := scheduled },
            d.responses, d.invoked, d.logs, false⟩
    else ⟨applyInterrupted msg s4, d.responses, d.invoked, d.logs, false⟩

/-- The channel's delivery loop: inbound messages are handled in arrival
order, each by its own `onmessage` invocation, each starting from the state
the previous one left (whether or not that one threw). -/
def processMessages (gen : String → Except String GenResponse)
    (s : AppState) : List (ℚ × LiveMessage) → AppState
  | [] => s
  | ev :: rest => processMessages gen (onMessage gen ev.1 ev.2 s).state rest

/-! ## Session start -/

/-- How far `startSession`'s acquisition sequence gets before failing:
`getUserMedia` rejected (nothing acquired), `ai.live.connect` rejected (the
microphone stream and both audio contexts already acquired), or everything
succeeded. -/
inductive AcquisitionOutcome where
  | micDenied
  | connectFailed
  | connected
  deriving Repr, DecidableEq

/-- The user-facing message of `startSession`'s catch block
(`App.tsx` line 264). -/
def startErrorText : String := "আমার কাছে পৌঁছানো যাচ্ছে না। দয়া করে আপনার ইন্টারনেট চেক করুন।"

/-- `startSession` (`App.tsx` lines 136-267): set the connecting flag and
clear the error; acquire the microphone stream, then both audio contexts,
then connect the channel.  On success (`onopen`) the session becomes
active.  On failure the catch block (lines 262-266) sets the user-facing
error and clears the connecting flag — and does nothing else: it contains
no `cleanupSession()` and no release of `streamRef` or the context refs. -/
def startSession (outcome : AcquisitionOutcome) (s : AppState) : AppState :=
  let s0 := { s with isConnecting := true, error := none }
  match outcome with
  | AcquisitionOutcome.micDenied =>
      { s0 with error := some startErrorText, isConnecting := false }
  | AcquisitionOutcome.connectFailed =>
      let s1 := { s0 with streamHeld := true, audioContextIn := true,
                          audioContextOut := true }
      { s1 with error := some startErrorText, isConnecting := false }
  | AcquisitionOutcome.connected =>
      let s1 := { s0 with streamHeld := true, audioContextIn := true,
                          audioContextOut := true }
      { s1 with sessionOpen := true, isActive := true, isConnecting := false }

/-- The lifecycle/resource/scheduler fields of the state, as one tuple. -/
def lifeView (s : AppState) :
    Bool × Bool × Bool × Bool × Bool × Bool × SchedState :=
  (s.isActive, s.isConnecting, s.sessionOpen, s.streamHeld, s.audioContextIn,
    s.audioContextOut, s.sched)

/-- `lifeView` plus transcripts, buffer and error: everything except the
artifact fields. -/
def coreView (s : AppState) :
    (Bool × Bool × Bool × Bool × Bool × Bool × SchedState) ×
      List Entry × TranscriptBuffer × Option String :=
  (lifeView s, s.transcripts, s.buffer, s.error)

/-- Concrete fixtures for witnesses: a session that started successfully. -/
def activeState : AppState := startSession AcquisitionOutcome.connected initialState

/-- An image collaborator that always succeeds with one inline image part. -/
def okGen : String → Except String GenResponse :=
  fun _ => Except.ok ⟨[⟨some "QUJD"⟩]⟩

/-- An image collaborator that always fails. -/
def failGen : String → Except String GenResponse :=
  fun _ => Except.error "network unreachable"

def demoCall : FunctionCall := ⟨"call-1", "generateImage", "a cat"⟩

def otherCall : FunctionCall := ⟨"call-2", "lookupWeather", "Dhaka"⟩

/-- A message carrying only a malformed audio chunk (odd byte length). -/
def badAudioMsg : LiveMessage := ⟨[], none, none, false, some [7], false⟩

/-! ## Theorems -/

theorem runEnqueues_nil (st : SchedState) : runEnqueues st [] = (st, []) := rfl

theorem runEnqueues_cons (st : SchedState) (clk dur : ℚ) (rest : List (ℚ × ℚ)) :
    runEnqueues st ((clk, dur) :: rest) =
      ((runEnqueues (enqueueChunk clk dur st).1 rest).1,
        (enqueueChunk clk dur st).2 :: (runEnqueues (enqueueChunk clk dur st).1 rest).2) := rfl

theorem runEnqueues_length (st : SchedState) (chunks : List (ℚ × ℚ)) :
    (runEnqueues st chunks).2.length = chunks.length := by
  induction chunks generalizing st with
  | nil => rfl
  | cons hd rest ih =>
    obtain ⟨clk, dur⟩ := hd
    simp [runEnqueues_cons, ih]

/-- Every start time is at least the clock reading at its own enqueue
(`start = max cursor clock ≥ clock`): the scheduler never schedules into
the past. -/
theorem runEnqueues_start_ge_clock (st : SchedState) (chunks : List (ℚ × ℚ))
    (i : ℕ) (c d s : ℚ) (hc : chunks.get? i = some (c, d))
    (hs : (runEnqueues st chunks).2.get? i = some s) : c ≤ s := by
  induction chunks generalizing st i with
  | nil => simp at hc
  | cons hd rest ih =>
    obtain ⟨clk, dur⟩ := hd
    cases i with
    | zero =>
      simp [runEnqueues_cons] at hc hs
      obtain ⟨hc1, _⟩ := hc
      subst hc1
      rw [← hs]
      exact le_max_right _ _
    | succ j =>
      simp only [List.get?_cons_succ] at hc
      simp only [runEnqueues_cons, List.get?_cons_succ] at hs
      exact ih _ j hc hs

/-- If every chunk after the first is enqueued no later than the moment the
previous chunk's scheduled playback ends (clock at enqueue `i+1` is at most
`start i + duration i`), consecutive start times are exactly contiguous. -/
theorem runEnqueues_gapless (st : SchedState) (chunks : List (ℚ × ℚ))
    (hfast : ∀ i c d c' d' s, chunks.get? i = some (c, d) →
      chunks.get? (i + 1) = some (c', d') →
      (runEnqueues st chunks).2.get? i = some s → c' ≤ s + d) :
    ∀ i c d s s', chunks.get? i = some (c, d) →
      (runEnqueues st chunks).2.get? i = some s →
      (runEnqueues st chunks).2.get? (i + 1) = some s' → s' = s + d := by
  induction chunks generalizing st with
  | nil => intro i c d s s' hc _ _; simp at hc
  | cons hd rest ih =>
    obtain ⟨clk, dur⟩ := hd
    intro i c d s s' hc hs hs'
    cases i with
    | zero =>
      simp only [List.get?_cons_zero, Option.some.injEq, Prod.mk.injEq] at hc
      simp only [runEnqueues_cons, List.get?_cons_zero, Option.some.injEq] at hs
      simp only [runEnqueues_cons, List.get?_cons_succ] at hs'
      obtain ⟨hc1, hc2⟩ := hc
      cases rest with
      | nil => simp [runEnqueues] at hs'
      | cons hd' rest' =>
        obtain ⟨clk', dur'⟩ := hd'
        simp only [runEnqueues_cons, List.get?_cons_zero, Option.some.injEq] at hs'
        have hle : clk' ≤ (enqueueChunk clk dur st).2 + dur := by
          refine hfast 0 clk dur clk' dur' (enqueueChunk clk dur st).2 rfl rfl ?_
          simp [runEnqueues_cons]
        have : (enqueueChunk clk dur st).1.nextStartTime = (enqueueChunk clk dur st).2 + dur := rfl
        rw [← hs', ← hs, ← hc2]
        simp only [enqueueChunk] at hle ⊢
        exact max_eq_left hle
    | succ j =>
      simp only [List.get?_cons_succ] at hc
      simp only [runEnqueues_cons, List.get?_cons_succ] at hs hs'
      refine ih (enqueueChunk clk dur st).1 ?_ j c d s s' hc hs hs'
      intro i' c0 d0 c0' d0' s0 h1 h2 h3
      refine hfast (i' + 1) c0 d0 c0' d0' s0 ?_ ?_ ?_
      · simpa using h1
      · simpa using h2
      · simp only [runEnqueues_cons, List.get?_cons_succ]
        exact h3

/-- C1 (amended): each chunk's start time is `max(cursor, clockNow)` and the
cursor then advances by the buffer duration; no start time ever precedes the
output clock at its enqueue; and, provided each chunk arrives no later than
the scheduled end of the previous one, the start time of chunk `k+1` equals
the start time of chunk `k` plus chunk `k`'s duration. -/
theorem gapless_scheduling (st : SchedState) (chunks : List (ℚ × ℚ))
    (hfast : ∀ i c d c' d' s, chunks.get? i = some (c, d) →
      chunks.get? (i + 1) = some (c', d') →
      (runEnqueues st chunks).2.get? i = some s → c' ≤ s + d) :
    (∀ i c d s, chunks.get? i = some (c, d) →
      (runEnqueues st chunks).2.get? i = some s → c ≤ s) ∧
    (∀ i c d s s', chunks.get? i = some (c, d) →
      (runEnqueues st chunks).2.get? i = some s →
      (runEnqueues st chunks).2.get? (i + 1) = some s' → s' = s + d) :=
  ⟨fun i c d s hc hs => runEnqueues_start_ge_clock st chunks i c d s hc hs,
   runEnqueues_gapless st chunks hfast⟩

/-- Witness for C1: Scenario A of the spec. Two chunks of durations 1/2 and
3/10 enqueued at clock 0 from the reset scheduler: the second starts exactly
at `0 + 1/2`. -/
theorem gapless_scheduling_witness :
    (runEnqueues ⟨0, []⟩ [((0 : ℚ), (1/2 : ℚ)), (0, 3/10)]).2.get? 1 =
      some (0 + 1/2) := by
  have hrun : (runEnqueues (⟨0, []⟩ : SchedState)
      [((0 : ℚ), (1/2 : ℚ)), (0, 3/10)]).2 = [0, 1/2] := by
    have m1 : max (0 : ℚ) 0 = 0 := max_self 0
    have m2 : max ((0 : ℚ) + 1/2) 0 = 0 + 1/2 := max_eq_left (by norm_num)
    simp [runEnqueues, enqueueChunk, m1, m2]
  have hfast : ∀ i c d c' d' s,
      ([((0 : ℚ), (1/2 : ℚ)), (0, 3/10)].get? i = some (c, d)) →
      ([((0 : ℚ), (1/2 : ℚ)), (0, 3/10)].get? (i + 1) = some (c', d')) →
      ((runEnqueues ⟨0, []⟩ [((0 : ℚ), (1/2 : ℚ)), (0, 3/10)]).2.get? i = some s) →
      c' ≤ s + d := by
    intro i c d c' d' s h1 h2 h3
    match i with
    | 0 =>
      have hc' : c' = 0 := by
        simp only [List.get?_cons_succ, List.get?_cons_zero,
          Option.some.injEq, Prod.mk.injEq] at h2
        exact h2.1.symm
      have hd : d = 1/2 := by
        simp only [List.get?_cons_zero, Option.some.injEq, Prod.mk.injEq] at h1
        exact h1.2.symm
      have hs0 : s = 0 := by
        rw [hrun] at h3
        simp only [List.get?_cons_zero, Option.some.injEq] at h3
        exact h3.symm
      rw [hc', hs0, hd]; norm_num
    | 1 => simp at h2
    | Nat.succ (Nat.succ j) => simp at h2
  have e0 : ([((0 : ℚ), (1/2 : ℚ)), (0, 3/10)].get? 0) = some ((0 : ℚ), (1/2 : ℚ)) := rfl
  have es : (runEnqueues (⟨0, []⟩ : SchedState)
      [((0 : ℚ), (1/2 : ℚ)), (0, 3/10)]).2.get? 0 = some 0 := by rw [hrun]; rfl
  have e1 : (runEnqueues (⟨0, []⟩ : SchedState)
      [((0 : ℚ), (1/2 : ℚ)), (0, 3/10)]).2.get? 1 = some (1/2) := by rw [hrun]; rfl
  have h := (gapless_scheduling ⟨0, []⟩ [((0 : ℚ), (1/2 : ℚ)), (0, 3/10)] hfast).2
    0 0 (1/2) 0 (1/2) e0 es e1
  rw [e1]
  exact congrArg some h

/-- Counterexample for C1 as literally stated: with the clock at 10 when the
second chunk is enqueued (playback of the first, scheduled at 0 with
duration 1, has long ended), the second start time is 10, not `0 + 1`. -/
theorem gapless_scheduling_counterexample :
    (runEnqueues ⟨0, []⟩ [((0 : ℚ), (1 : ℚ)), (10, 1)]).2.get? 0 = some 0 ∧
    (runEnqueues ⟨0, []⟩ [((0 : ℚ), (1 : ℚ)), (10, 1)]).2.get? 1 = some 10 ∧
    (10 : ℚ) ≠ 0 + 1 := by
  have m1 : max (0 : ℚ) 0 = 0 := max_self 0
  have m2 : max ((0 : ℚ) + 1) 10 = 10 := max_eq_right (by norm_num)
  have hrun : (runEnqueues (⟨0, []⟩ : SchedState)
      [((0 : ℚ), (1 : ℚ)), (10, 1)]).2 = [0, 10] := by
    simp [runEnqueues, enqueueChunk, m1, m2]
  refine ⟨by rw [hrun]; rfl, by rw [hrun]; rfl, by norm_num⟩

/-- C2: after any burst of enqueues, an interruption empties the active
handle set and resets the cursor to 0; interruption is idempotent; and a
subsequent enqueue (at any nonnegative clock reading) starts exactly at the
current output clock time, not at the previously accumulated cursor. -/
theorem interrupt_clears_all (st0 : SchedState) (chunks : List (ℚ × ℚ))
    (clk dur : ℚ) (hclk : 0 ≤ clk) :
    (interrupt (runEnqueues st0 chunks).1).sources = [] ∧
    (interrupt (runEnqueues st0 chunks).1).nextStartTime = 0 ∧
    interrupt (interrupt (runEnqueues st0 chunks).1) =
      interrupt (runEnqueues st0 chunks).1 ∧
    (enqueueChunk clk dur (interrupt (runEnqueues st0 chunks).1)).2 = clk := by
  refine ⟨rfl, rfl, rfl, ?_⟩
  simp only [enqueueChunk, interrupt]
  exact max_eq_right hclk

/-- Witness for C2: one enqueue of duration 1 at clock 0 (cursor reaches 1),
then interrupt, then an enqueue at clock 2 starts at 2. -/
theorem interrupt_clears_all_witness :
    (0 : ℚ) ≤ 2 ∧
    ((interrupt (runEnqueues ⟨0, []⟩ [((0 : ℚ), (1 : ℚ))]).1).sources = [] ∧
     (interrupt (runEnqueues ⟨0, []⟩ [((0 : ℚ), (1 : ℚ))]).1).nextStartTime = 0 ∧
     interrupt (interrupt (runEnqueues ⟨0, []⟩ [((0 : ℚ), (1 : ℚ))]).1) =
       interrupt (runEnqueues ⟨0, []⟩ [((0 : ℚ), (1 : ℚ))]).1 ∧
     (enqueueChunk 2 1 (interrupt (runEnqueues ⟨0, []⟩ [((0 : ℚ), (1 : ℚ))]).1)).2 = 2) :=
  ⟨by norm_num, interrupt_clears_all ⟨0, []⟩ [((0 : ℚ), (1 : ℚ))] 2 1 (by norm_num)⟩

theorem appendFragment_user (b : TranscriptBuffer) (r : Role) (t : String) :
    (appendFragment b r t).user = b.user ++ (if r = Role.user then t else "") := by
  cases r <;> simp [appendFragment, String.append_empty]

theorem appendFragment_model (b : TranscriptBuffer) (r : Role) (t : String) :
    (appendFragment b r t).model = b.model ++ (if r = Role.model then t else "") := by
  cases r <;> simp [appendFragment, String.append_empty]

theorem appendFragments_user (b : TranscriptBuffer) (frags : List (Role × String)) :
    (appendFragments b frags).user = b.user ++ roleConcat Role.user frags := by
  induction frags generalizing b with
  | nil => simp [appendFragments, roleConcat, String.append_empty]
  | cons hd rest ih =>
    obtain ⟨r, t⟩ := hd
    have step : appendFragments b ((r, t) :: rest) =
        appendFragments (appendFragment b r t) rest := rfl
    rw [step, ih, appendFragment_user, roleConcat, String.append_assoc]

theorem appendFragments_model (b : TranscriptBuffer) (frags : List (Role × String)) :
    (appendFragments b frags).model = b.model ++ roleConcat Role.model frags := by
  induction frags generalizing b with
  | nil => simp [appendFragments, roleConcat, String.append_empty]
  | cons hd rest ih =>
    obtain ⟨r, t⟩ := hd
    have step : appendFragments b ((r, t) :: rest) =
        appendFragments (appendFragment b r t) rest := rfl
    rw [step, ih, appendFragment_model, roleConcat, String.append_assoc]

/-- C3: after any sequence of fragments into empty buffers, one turn
completion finalizes, per role, exactly the trimmed concatenation of that
role's fragments in call order (an entry only when the trimmed text is
non-empty), clears both buffers unconditionally, and a second turn
completion immediately after produces no entries for either role and leaves
the transcript list unchanged. -/
theorem transcript_turn_flush (frags : List (Role × String)) (prev : List Entry) :
    turnEntries (appendFragments ⟨"", ""⟩ frags) =
      (if jsTrim (roleConcat Role.user frags) ≠ "" then
        [⟨Role.user, jsTrim (roleConcat Role.user frags)⟩] else []) ++
      (if jsTrim (roleConcat Role.model frags) ≠ "" then
        [⟨Role.model, jsTrim (roleConcat Role.model frags)⟩] else []) ∧
    (completeTurn (appendFragments ⟨"", ""⟩ frags) prev).1 = ⟨"", ""⟩ ∧
    (∀ l, completeTurn (⟨"", ""⟩ : TranscriptBuffer) l = (⟨"", ""⟩, l)) ∧
    turnEntries (⟨"", ""⟩ : TranscriptBuffer) = [] := by
  have hu : (appendFragments ⟨"", ""⟩ frags).user = roleConcat Role.user frags := by
    rw [appendFragments_user]; exact String.empty_append _
  have hm : (appendFragments ⟨"", ""⟩ frags).model = roleConcat Role.model frags := by
    rw [appendFragments_model]; exact String.empty_append _
  refine ⟨?_, rfl, ?_, rfl⟩
  · rw [turnEntries, hu, hm]
  · intro l
    simp [completeTurn, jsTrim]

/-- The prepend-then-truncate update never lets the list exceed 30. -/
theorem insertEntries_length_le (es prev : List Entry) :
    (insertEntries es prev).length ≤ 30 := by
  simp only [insertEntries]
  exact (List.length_take_le 30 _)

theorem insertEntries_one_take (e : Entry) (xs : List Entry) :
    insertEntries [e] (xs.take 30) = insertEntries [e] xs := by
  simp only [insertEntries, List.singleton_append, List.take_succ_cons, List.take_take]
  rfl

/-- Folding single-entry insertions from the empty list keeps the 30 newest
entries, newest first. -/
theorem foldl_insert_one (l : List Entry) :
    l.foldl (fun acc e => insertEntries [e] acc) [] = l.reverse.take 30 := by
  induction l using List.reverseRecOn with
  | nil => rfl
  | append_singleton xs e ih =>
    rw [List.foldl_append, List.foldl_cons, List.foldl_nil, ih,
      List.reverse_append, List.reverse_singleton, List.singleton_append,
      ← insertEntries_one_take]
    simp only [insertEntries, List.singleton_append, List.take_succ_cons, List.take_take]
    rfl

/-- C4: the transcript list never exceeds 30 entries, and inserting 35
finalized entries one at a time (each prepended) leaves exactly the 30 most
recent, newest at the head — the 5 oldest are evicted. -/
theorem bounded_history (l : List Entry) (h35 : l.length = 35) :
    (∀ es prev, (insertEntries es prev).length ≤ 30) ∧
    l.foldl (fun acc e => insertEntries [e] acc) [] = (l.drop 5).reverse ∧
    (l.foldl (fun acc e => insertEntries [e] acc) []).length = 30 ∧
    (l.foldl (fun acc e => insertEntries [e] acc) []).head? = l.getLast? := by
  have key : l.foldl (fun acc e => insertEntries [e] acc) [] = (l.drop 5).reverse := by
    rw [foldl_insert_one, List.take_reverse, h35]
  refine ⟨insertEntries_length_le, key, ?_, ?_⟩
  · rw [key]; simp [List.length_reverse, List.length_drop, h35]
  · rw [key, List.head?_reverse]
    have : l.drop 5 ≠ [] := by
      intro hnil
      have := congrArg List.length hnil
      simp [List.length_drop, h35] at this
    rw [List.getLast?_drop]
    simp [h35]

theorem handleGenerateImage_coreView (gen : String → Except String GenResponse)
    (p : String) (s : AppState) :
    coreView (handleGenerateImage gen p s).1 = coreView s := by
  cases hg : gen p with
  | error e => simp [handleGenerateImage, hg, coreView, lifeView]
  | ok resp =>
    cases hf : resp.parts.findSome? (fun pt => pt.inlineData) with
    | none => simp [handleGenerateImage, hg, hf, coreView, lifeView]
    | some dta => simp [handleGenerateImage, hg, hf, coreView, lifeView]

theorem processFunctionCalls_coreView (gen : String → Except String GenResponse)
    (s : AppState) (fcs : List FunctionCall) :
    coreView (processFunctionCalls gen s fcs).state = coreView s := by
  induction fcs generalizing s with
  | nil => rfl
  | cons fc rest ih =>
    by_cases hn : fc.name = "generateImage"
    · simp only [processFunctionCalls, if_pos hn]
      exact (ih (handleGenerateImage gen fc.promptArg s).1).trans
        (handleGenerateImage_coreView gen fc.promptArg s)
    · simp only [processFunctionCalls, if_neg hn]
      exact ih s

theorem preAudio_lifeView (gen : String → Except String GenResponse)
    (msg : LiveMessage) (s : AppState) :
    lifeView (preAudio gen msg s).state = lifeView s := by
  have h1 : lifeView (processFunctionCalls gen s msg.toolCalls).state = lifeView s :=
    congrArg Prod.fst (processFunctionCalls_coreView gen s msg.toolCalls)
  obtain ⟨tc, it, ot, turn, aud, intr⟩ := msg
  cases it <;> cases ot <;> cases turn <;>
    simp only [preAudio, lifeView] at h1 ⊢ <;> exact h1

/-- C9: `cleanupSession` is idempotent — a second call is a no-op (and the
source wraps every fallible close in its own `try/catch`, so neither call
raises) — and the state after it is terminal: channel closed, capture
stream stopped, both audio contexts released, no scheduled playback,
cursor 0, session inactive. -/
theorem idempotent_stop (s : AppState) :
    cleanupSession (cleanupSession s) = cleanupSession s ∧
    (cleanupSession s).sessionOpen = false ∧
    (cleanupSession s).streamHeld = false ∧
    (cleanupSession s).audioContextIn = false ∧
    (cleanupSession s).audioContextOut = false ∧
    (cleanupSession s).sched = ⟨0, []⟩ ∧
    (cleanupSession s).isActive = false :=
  ⟨rfl, rfl, rfl, rfl, rfl, rfl, rfl⟩

/-- C8: a `generateImage` tool call on an active session invokes the image
collaborator exactly once with the requested prompt, stores the first
returned inline-image part as the current artifact (whatever was there
before), and sends exactly one `toolResponse` carrying the request's id and
name and the fixed confirmation text. -/
theorem tool_dispatch_success (gen : String → Except String GenResponse)
    (fc : FunctionCall) (s : AppState) (resp : GenResponse) (dta : String)
    (hname : fc.name = "generateImage")
    (hactive : s.isActive = true)
    (hok : gen fc.promptArg = Except.ok resp)
    (hfirst : resp.parts.findSome? (fun pt => pt.inlineData) = some dta) :
    (processFunctionCalls gen s [fc]).invoked = [fc.promptArg] ∧
    (processFunctionCalls gen s [fc]).responses =
      [⟨fc.id, fc.name, confirmationText⟩] ∧
    (processFunctionCalls gen s [fc]).state.generatedImage =
      some ("data:image/png;base64," ++ dta) ∧
    (processFunctionCalls gen s [fc]).state.isActive = true ∧
    (processFunctionCalls gen s [fc]).state.transcripts = s.transcripts ∧
    (processFunctionCalls gen s [fc]).state.sched = s.sched := by
  simp [processFunctionCalls, hname, handleGenerateImage, hok, hfirst, hactive]

/-- Witness for C8: the fixture collaborator and call on a freshly started
session. -/
theorem tool_dispatch_success_witness :
    demoCall.name = "generateImage" ∧
    activeState.isActive = true ∧
    okGen demoCall.promptArg = Except.ok ⟨[⟨some "QUJD"⟩]⟩ ∧
    ((processFunctionCalls okGen activeState [demoCall]).invoked = ["a cat"] ∧
      (processFunctionCalls okGen activeState [demoCall]).responses =
        [⟨"call-1", "generateImage", confirmationText⟩] ∧
      (processFunctionCalls okGen activeState [demoCall]).state.generatedImage =
        some ("data:image/png;base64," ++ "QUJD") ∧
      (processFunctionCalls okGen activeState [demoCall]).state.isActive = true ∧
      (processFunctionCalls okGen activeState [demoCall]).state.transcripts =
        activeState.transcripts ∧
      (processFunctionCalls okGen activeState [demoCall]).state.sched =
        activeState.sched) :=
  ⟨rfl, rfl, rfl,
    tool_dispatch_success okGen demoCall activeState ⟨[⟨some "QUJD"⟩]⟩ "QUJD"
      rfl rfl rfl rfl⟩

/-- C5: when the image collaborator fails, the dispatcher still sends
exactly one `toolResponse` for the call — with the same unconditional
confirmation text — logs the failure, stores no artifact, and leaves the
session, playback and transcript state untouched. -/
theorem tool_failure_still_replies (gen : String → Except String GenResponse)
    (fc : FunctionCall) (s : AppState) (e : String)
    (hname : fc.name = "generateImage")
    (hfail : gen fc.promptArg = Except.error e) :
    (processFunctionCalls gen s [fc]).responses =
      [⟨fc.id, fc.name, confirmationText⟩] ∧
    (processFunctionCalls gen s [fc]).logs = ["Image generation failed: " ++ e] ∧
    (processFunctionCalls gen s [fc]).state.generatedImage = s.generatedImage ∧
    (processFunctionCalls gen s [fc]).state.isActive = s.isActive ∧
    (processFunctionCalls gen s [fc]).state.sessionOpen = s.sessionOpen ∧
    (processFunctionCalls gen s [fc]).state.streamHeld = s.streamHeld ∧
    (processFunctionCalls gen s [fc]).state.sched = s.sched ∧
    (processFunctionCalls gen s [fc]).state.transcripts = s.transcripts ∧
    (processFunctionCalls gen s [fc]).state.buffer = s.buffer := by
  simp [processFunctionCalls, hname, handleGenerateImage, hfail]

/-- Witness for C5: the failing fixture collaborator on a freshly started
session. -/
theorem tool_failure_still_replies_witness :
    demoCall.name = "generateImage" ∧
    failGen demoCall.promptArg = Except.error "network unreachable" ∧
    ((processFunctionCalls failGen activeState [demoCall]).responses =
        [⟨"call-1", "generateImage", confirmationText⟩] ∧
      (processFunctionCalls failGen activeState [demoCall]).logs =
        ["Image generation failed: " ++ "network unreachable"] ∧
      (processFunctionCalls failGen activeState [demoCall]).state.generatedImage =
        activeState.generatedImage ∧
      (processFunctionCalls failGen activeState [demoCall]).state.isActive =
        activeState.isActive ∧
      (processFunctionCalls failGen activeState [demoCall]).state.sessionOpen =
        activeState.sessionOpen ∧
      (processFunctionCalls failGen activeState [demoCall]).state.streamHeld =
        activeState.streamHeld ∧
      (processFunctionCalls failGen activeState [demoCall]).state.sched =
        activeState.sched ∧
      (processFunctionCalls failGen activeState [demoCall]).state.transcripts =
        activeState.transcripts ∧
      (processFunctionCalls failGen activeState [demoCall]).state.buffer =
        activeState.buffer) :=
  ⟨rfl, rfl,
    tool_failure_still_replies failGen demoCall activeState "network unreachable"
      rfl rfl⟩

theorem processFunctionCalls_unrecognized (gen : String → Except String GenResponse)
    (s : AppState) (fcs : List FunctionCall)
    (h : ∀ fc ∈ fcs, fc.name ≠ "generateImage") :
    processFunctionCalls gen s fcs = ⟨s, [], [], []⟩ := by
  induction fcs with
  | nil => rfl
  | cons fc rest ih =>
    have hfc : fc.name ≠ "generateImage" := h fc (List.mem_cons_self fc rest)
    simp only [processFunctionCalls, if_neg hfc]
    exact ih (fun g hg => h g (List.mem_cons_of_mem fc hg))

/-- C10: a `toolCall` message whose function calls all carry a name other
than `generateImage` produces no `toolResponse`, no collaborator
invocation, no log, and leaves the whole session state exactly as it was. -/
theorem unrecognized_tool_ignored (gen : String → Except String GenResponse)
    (clk : ℚ) (s : AppState) (fcs : List FunctionCall)
    (h : ∀ fc ∈ fcs, fc.name ≠ "generateImage") :
    onMessage gen clk ⟨fcs, none, none, false, none, false⟩ s =
      ⟨s, [], [], [], false⟩ := by
  simp [onMessage, preAudio, applyInterrupted,
    processFunctionCalls_unrecognized gen s fcs h]

/-- Witness for C10: a `lookupWeather` call on a freshly started session is
ignored outright. -/
theorem unrecognized_tool_ignored_witness :
    (∀ fc ∈ [otherCall], fc.name ≠ "generateImage") ∧
    onMessage okGen 0 ⟨[otherCall], none, none, false, none, false⟩ activeState =
      ⟨activeState, [], [], [], false⟩ := by
  have h : ∀ fc ∈ [otherCall], fc.name ≠ "generateImage" := by
    intro fc hfc
    rw [List.mem_singleton] at hfc
    subst hfc
    decide
  exact ⟨h, unrecognized_tool_ignored okGen 0 activeState [otherCall] h⟩

/-- C7 (failing input): `startSession` from the idle state where the
microphone is granted but the channel connect then rejects.  The catch
block (`App.tsx` lines 262-266) does set the user-facing error and clear
the connecting flag — but it releases nothing: the microphone stream and
both audio contexts remain acquired, contradicting the claimed cleanup. -/
theorem acquisition_failure_leaks_resources :
    (startSession AcquisitionOutcome.connectFailed initialState).error =
      some startErrorText ∧
    (startSession AcquisitionOutcome.connectFailed initialState).isActive = false ∧
    (startSession AcquisitionOutcome.connectFailed initialState).isConnecting = false ∧
    (startSession AcquisitionOutcome.connectFailed initialState).streamHeld = true ∧
    (startSession AcquisitionOutcome.connectFailed initialState).audioContextIn = true ∧
    (startSession AcquisitionOutcome.connectFailed initialState).audioContextOut = true :=
  ⟨rfl, rfl, rfl, rfl, rfl, rfl⟩

/-- C6: a malformed inbound audio chunk (here: the decode fails) aborts
only that one `onmessage` invocation — the chunk is skipped.  The session
stays exactly as open and active as before, no playback handle is added,
the cursor only gets clamped up to the output clock (never below it), and
the delivery loop goes on to handle every subsequent message from that
state. -/
theorem decode_error_resilience (gen : String → Except String GenResponse)
    (clockNow : ℚ) (msg : LiveMessage) (s : AppState) (bytes : List ℕ) (e : String)
    (haudio : msg.audioData = some bytes)
    (hbad : decodeAudioChunk bytes = Except.error e)
    (hctx : s.audioContextOut = true) :
    (onMessage gen clockNow msg s).threw = true ∧
    (onMessage gen clockNow msg s).state.sessionOpen = s.sessionOpen ∧
    (onMessage gen clockNow msg s).state.isActive = s.isActive ∧
    (onMessage gen clockNow msg s).state.streamHeld = s.streamHeld ∧
    (onMessage gen clockNow msg s).state.sched.sources = s.sched.sources ∧
    (onMessage gen clockNow msg s).state.sched.nextStartTime =
      max s.sched.nextStartTime clockNow ∧
    clockNow ≤ (onMessage gen clockNow msg s).state.sched.nextStartTime ∧
    (∀ evts, processMessages gen s ((clockNow, msg) :: evts) =
      processMessages gen (onMessage gen clockNow msg s).state evts) := by
  have hlife := preAudio_lifeView gen msg s
  simp only [lifeView, Prod.mk.injEq] at hlife
  obtain ⟨hA, hC, hO, hSt, hAI, hAO, hSch⟩ := hlife
  have hcond : (preAudio gen msg s).state.audioContextOut = true := hAO.trans hctx
  have hout : onMessage gen clockNow msg s =
      ⟨{ (preAudio gen msg s).state with
          audioContextOut := true,
          sched := { (preAudio gen msg s).state.sched with
            nextStartTime := max (preAudio gen msg s).state.sched.nextStartTime clockNow } },
        (preAudio gen msg s).responses, (preAudio gen msg s).invoked,
        (preAudio gen msg s).logs, true⟩ := by
    simp only [onMessage, haudio, hcond, hbad, if_true]
  refine ⟨?_, ?_, ?_, ?_, ?_, ?_, ?_, ?_⟩
  · rw [hout]
  · rw [hout]; exact hO
  · rw [hout]; exact hA
  · rw [hout]; exact hSt
  · rw [hout]
    show (preAudio gen msg s).state.sched.sources = s.sched.sources
    exact congrArg SchedState.sources hSch
  · rw [hout]
    show max (preAudio gen msg s).state.sched.nextStartTime clockNow =
      max s.sched.nextStartTime clockNow
    rw [hSch]
  · rw [hout]
    show clockNow ≤ max (preAudio gen msg s).state.sched.nextStartTime clockNow
    exact le_max_right _ _
  · intro evts
    rfl

/-- Witness for C6: the odd-length chunk `[7]` on a freshly started session
at clock 0. -/
theorem decode_error_resilience_witness :
    badAudioMsg.audioData = some [7] ∧
    decodeAudioChunk [7] = Except.error "UnsupportedFormat" ∧
    activeState.audioContextOut = true ∧
    ((onMessage okGen 0 badAudioMsg activeState).threw = true ∧
      (onMessage okGen 0 badAudioMsg activeState).state.sessionOpen =
        activeState.sessionOpen ∧
      (onMessage okGen 0 badAudioMsg activeState).state.isActive =
        activeState.isActive ∧
      (onMessage okGen 0 badAudioMsg activeState).state.streamHeld =
        activeState.streamHeld ∧
      (onMessage okGen 0 badAudioMsg activeState).state.sched.sources =
        activeState.sched.sources ∧
      (onMessage okGen 0 badAudioMsg activeState).state.sched.nextStartTime =
        max activeState.sched.nextStartTime 0 ∧
      (0 : ℚ) ≤ (onMessage okGen 0 badAudioMsg activeState).state.sched.nextStartTime ∧
      (∀ evts, processMessages okGen activeState ((0, badAudioMsg) :: evts) =
        processMessages okGen (onMessage okGen 0 badAudioMsg activeState).state evts)) :=
  ⟨rfl, rfl, rfl,
    decode_error_resilience okGen 0 badAudioMsg activeState [7] "UnsupportedFormat"
      rfl rfl rfl⟩

/-- Witness for C4: 35 concrete entries inserted one at a time leave the 30
most recent, newest first. -/
theorem bounded_history_witness :
    (List.replicate 35 (⟨Role.user, "x"⟩ : Entry)).length = 35 ∧
    ((∀ es prev, (insertEntries es prev).length ≤ 30) ∧
      (List.replicate 35 (⟨Role.user, "x"⟩ : Entry)).foldl
          (fun acc e => insertEntries [e] acc) [] =
        ((List.replicate 35 (⟨Role.user, "x"⟩ : Entry)).drop 5).reverse ∧
      ((List.replicate 35 (⟨Role.user, "x"⟩ : Entry)).foldl
          (fun acc e => insertEntries [e] acc) []).length = 30 ∧
      ((List.replicate 35 (⟨Role.user, "x"⟩ : Entry)).foldl
          (fun acc e => insertEntries [e] acc) []).head? =
        (List.replicate 35 (⟨Role.user, "x"⟩ : Entry)).getLast?) :=
  ⟨by simp, bounded_history (List.replicate 35 ⟨Role.user, "x"⟩) (by simp)⟩

end VoiceAI
